import Mathlib

/-!
# Verification of the Google Trends Explorer pipeline (`Trend_App.py`)

A shallow embedding, in Lean 4, of the data-transformation core of the
single-file Streamlit application `Trend_App.py`:

* `get_country_code` (region-code resolution, lines 55-65),
* `fetch_interest_over_time_df` (series normalization, lines 102-110),
* `get_related_queries_df` (related-query extraction, lines 175-186),
* the top-regions filter/sort/truncate/rename block (lines 240-252),
* the control flow of the "Analyze" block with its exception handling
  (lines 205-264), and
* the sequence of provider calls and `time.sleep` throttles.

Python strings are modelled as Lean `String`s; the Python `str` methods
used by the source (`strip`, `isalpha`, `upper`, `lower`) are modelled
character-wise on the ASCII fragment via the code-point arithmetic below.
pandas `DataFrame`s are modelled as explicit column lists and row lists,
and pandas/pytrends calls are translated operation by operation where they
appear in the source.
-/

namespace TrendApp

open scoped List

/-- Python `str.isalpha` on a single character, ASCII fragment:
code points 65-90 (`A`-`Z`) and 97-122 (`a`-`z`). -/
def pyCharIsAlpha (c : Char) : Bool :=
  decide ((65 ≤ c.toNat ∧ c.toNat ≤ 90) ∨ (97 ≤ c.toNat ∧ c.toNat ≤ 122))

/-- Python `str.strip` whitespace test on a single character, ASCII fragment:
space (32) and the control characters 9-13 (tab, LF, VT, FF, CR). -/
def pyCharIsSpace (c : Char) : Bool :=
  decide (c.toNat = 32 ∨ (9 ≤ c.toNat ∧ c.toNat ≤ 13))

/-- Python `str.upper` on a single character, ASCII fragment:
`a`-`z` (97-122) maps down by 32 to `A`-`Z`; everything else is unchanged. -/
def pyCharUpper (c : Char) : Char :=
  if 97 ≤ c.toNat ∧ c.toNat ≤ 122 then Char.ofNat (c.toNat - 32) else c

/-- Python `str.lower` on a single character, ASCII fragment:
`A`-`Z` (65-90) maps up by 32 to `a`-`z`; everything else is unchanged. -/
def pyCharLower (c : Char) : Char :=
  if 65 ≤ c.toNat ∧ c.toNat ≤ 90 then Char.ofNat (c.toNat + 32) else c

/-- Python `str.strip()`: drop leading and trailing whitespace characters. -/
def pyStrip (s : String) : String :=
  ⟨((s.data.dropWhile pyCharIsSpace).reverse.dropWhile pyCharIsSpace).reverse⟩

/-- Python `str.upper()`: character-wise upper-casing. -/
def pyUpper (s : String) : String :=
  ⟨s.data.map pyCharUpper⟩

/-- Python `str.lower()`: character-wise lower-casing. -/
def pyLower (s : String) : String :=
  ⟨s.data.map pyCharLower⟩

/-- Python `str.isalpha()`: nonempty and every character alphabetic. -/
def pyIsAlpha (s : String) : Bool :=
  !s.data.isEmpty && s.data.all pyCharIsAlpha

/-- The country-name registry backing `pycountry.countries.lookup`.
Each entry pairs a lookup key (a country name) with the country's ISO 3166-1
alpha-2 code.  `pycountry`'s lookup is case-insensitive, which is embedded
here by comparing lower-cased keys. -/
abbrev Registry := List (String × String)

/-- `pycountry.countries.lookup(q).alpha_2`, returning `none` where the Python
call raises `LookupError` (no entry matches `q` case-insensitively). -/
def lookupRegistry (reg : Registry) (q : String) : Option String :=
  (reg.find? (fun p => pyLower p.1 == pyLower q)).map Prod.snd

/-- `get_country_code` (`Trend_App.py` lines 55-65).
`if not user_input: return ""`; strip; if the stripped input has length 2 and
`isalpha()`, return it upper-cased; otherwise look it up in the registry,
returning the alpha-2 code on success and `""` where the Python code catches
the lookup exception. -/
def get_country_code (reg : Registry) (user_input : String) : String :=
  if user_input = "" then ""
  else
    let s := pyStrip user_input
    if s.length = 2 ∧ pyIsAlpha s = true then pyUpper s
    else
      match lookupRegistry reg s with
      | some code => code
      | none => ""

/-- A string of exactly two uppercase ASCII letters — the shape of an
ISO 3166-1 alpha-2 region code as this program uses it. -/
def isUpperCode2 (s : String) : Prop :=
  s.length = 2 ∧ ∀ c ∈ s.data, 65 ≤ c.toNat ∧ c.toNat ≤ 90

instance (s : String) : Decidable (isUpperCode2 s) := by
  unfold isUpperCode2; infer_instance

/-! ## Region tables and the top-regions block -/

/-- One row of a pandas DataFrame indexed by region name
(`pytrends.interest_by_region()` output): the region (index label) together
with the row's cells as an association list from column name (keyword) to
integer interest value. -/
structure Row where
  region : String
  cells : List (String × Int)
deriving DecidableEq, Repr

/-- `row[k]`: the value of column `k` in this row, `none` when the row has no
such column. -/
def Row.get (r : Row) (k : String) : Option Int :=
  (r.cells.find? (fun c => c.1 == k)).map Prod.snd

/-- A pandas DataFrame as returned by `pytrends.interest_by_region()`:
column names (the keywords) plus one row per region. -/
structure RegionTable where
  cols : List String
  rows : List Row
deriving DecidableEq, Repr

/-- The boolean-mask filter `region_df[region_df[k] >= min_interest]`
(`Trend_App.py` line 245): keep the rows whose value in column `k` is present
and at least `m`.  (A pandas comparison against a missing value is false, so
a row lacking the column is dropped.) -/
def filterMinInterest (rows : List Row) (k : String) (m : Int) : List Row :=
  rows.filter (fun r =>
    match r.get k with
    | some v => decide (m ≤ v)
    | none => false)

/-- The key a row is sorted by: its value in column `k`.  Every row reaching
the sort in the source has passed the `region_df[k] >= min_interest` mask, so
the `getD 0` default is never exercised there. -/
def rowKey (k : String) (r : Row) : Int :=
  (r.get k).getD 0

/-- The ascending comparison on rows underlying `sort_values(by=k)`. -/
def rowLe (k : String) (a b : Row) : Prop :=
  rowKey k a ≤ rowKey k b

instance (k : String) : DecidableRel (rowLe k) :=
  fun a b => inferInstanceAs (Decidable (rowKey k a ≤ rowKey k b))

instance (k : String) : IsTotal Row (rowLe k) :=
  ⟨fun a b => Int.le_total (rowKey k a) (rowKey k b)⟩

instance (k : String) : IsTrans Row (rowLe k) :=
  ⟨fun _ _ _ h₁ h₂ => le_trans h₁ h₂⟩

/-- pandas `df.sort_values(by=k, ascending=False)` (`Trend_App.py` lines
245-246).  pandas argsorts the column ascending and then reverses the
resulting permutation (`indexer = indexer[::-1]` in
`pandas.core.sorting.nargsort`).  The ascending argsort is embedded as a
stable sort, which is exact for frames of fewer than 16 rows, where numpy's
default quicksort runs its insertion-sort path (stable); for larger frames
numpy's quicksort gives no tie-order guarantee, so theorems about the order
of equal keys carry a size bound. -/
def sortValuesDesc (rows : List Row) (k : String) : List Row :=
  (rows.insertionSort (rowLe k)).reverse

/-- The filter/sort/truncate chain of the top-regions block (`Trend_App.py`
lines 245-246): `region_df[region_df[k] >= min_interest]
.sort_values(by=k, ascending=False).head(top_n)`. -/
def topPipeline (rows : List Row) (k : String) (m : Int) (n : Nat) : List Row :=
  (sortValuesDesc (filterMinInterest rows k m) k).take n

/-- `fr.rename(columns={k: k + "_interest"})` applied to one row
(`Trend_App.py` line 249): every cell whose column name equals `k` is
relabelled `k ++ "_interest"`; other cells keep their names. -/
def renameCol (k : String) (r : Row) : Row :=
  ⟨r.region, r.cells.map (fun c => (if c.1 = k then k ++ "_interest" else c.1, c.2))⟩

/-- The bottom-left "top regions" block (`Trend_App.py` lines 240-252).
It runs only when the region table has rows and the keyword list is
nonempty; it uses only the FIRST keyword; when that keyword is a column of
the table it filters, sorts and truncates, and when the result is nonempty
it renames the keyword column and displays the frame.  The value is the
displayed table, `none` when nothing is displayed. -/
def row2col1Block (region_df : RegionTable) (keywords : List String)
    (min_interest : Int) (top_n : Nat) : Option RegionTable :=
  match keywords with
  | [] => none
  | first_keyword :: _ =>
    if region_df.rows = [] then none
    else if first_keyword ∈ region_df.cols then
      let fr := topPipeline region_df.rows first_keyword min_interest top_n
      if fr = [] then none
      else
        some ⟨region_df.cols.map
                (fun c => if c = first_keyword then first_keyword ++ "_interest" else c),
              fr.map (renameCol first_keyword)⟩
    else none

/-- Modelled from the spec (Section 4.3 `RegionAggregator`, as quoted by the
claim), for comparison against `row2col1Block`: for EVERY keyword present as
a column of the region table, filter (value ≥ `minInterest`), sort descending
(stable), truncate to `topN`, rename to `"<keyword>_interest"`, and merge the
per-keyword results into one wide view keyed by region name via outer join,
leaving a missing value (`none`) where a region is absent from a keyword's
top-N. -/
def aggregateSpec (region_df : RegionTable) (m : Int) (n : Nat) :
    List (String × List (String × Option Int)) :=
  let perKw : List (String × List Row) :=
    region_df.cols.map (fun k => (k, topPipeline region_df.rows k m n))
  let regions : List String :=
    (perKw.map (fun kw => kw.2.map Row.region)).flatten.dedup
  regions.map (fun nm =>
    (nm, perKw.map (fun kw =>
      (kw.1 ++ "_interest",
       (kw.2.find? (fun r => r.region == nm)).bind (fun r => r.get kw.1)))))

/-! ## Time-series normalization -/

/-- A pandas DataFrame as returned by `pytrends.interest_over_time()`:
a timestamp index plus named columns of integer interest values (and possibly
the provider's boolean `isPartial` bookkeeping column, encoded like the
others). -/
structure TimeDf where
  index : List Nat
  cols : List (String × List Int)
deriving DecidableEq, Repr

/-- pandas `df.empty`: a frame is empty when either axis has length zero. -/
def TimeDf.isEmpty (df : TimeDf) : Prop :=
  df.index = [] ∨ df.cols = []

instance (df : TimeDf) : Decidable df.isEmpty := by
  unfold TimeDf.isEmpty; infer_instance

/-- Lines 108-109 of `Trend_App.py`:
`if "isPartial" in df.columns: df = df.drop(columns=["isPartial"])`. -/
def dropIsPartial (df : TimeDf) : TimeDf :=
  if "isPartial" ∈ df.cols.map Prod.fst then
    ⟨df.index, df.cols.filter (fun c => !(c.1 == "isPartial"))⟩
  else df

/-- `GoogleTrendsExplorer.fetch_interest_over_time_df` (`Trend_App.py` lines
102-110): with no keywords it returns an empty frame without touching the
provider; otherwise `raw` is the provider's `interest_over_time()` response,
from which the `isPartial` column is dropped when present. -/
def fetch_interest_over_time_df (keywords : List String) (raw : TimeDf) : TimeDf :=
  if keywords = [] then ⟨[], []⟩
  else dropIsPartial raw

/-! ## Related queries -/

/-- One entry of the `pytrends.related_queries()` response dictionary: the
`"top"` sub-table (rows of related term and relative score), `none` when the
`"top"` key is absent. -/
structure RelatedEntry where
  top : Option (List (String × Int))
deriving DecidableEq, Repr

/-- The `pytrends.related_queries()` response: a dictionary from keyword to
its entry. -/
abbrev RelatedDict := List (String × RelatedEntry)

/-- `related.get(kw, {}).get("top", None)` (`Trend_App.py` line 182): the
`"top"` sub-table of keyword `kw`, `none` when `kw` has no entry or the entry
has no `"top"` sub-table. -/
def relatedGet (related : RelatedDict) (kw : String) : Option (List (String × Int)) :=
  ((related.find? (fun p => p.1 == kw)).map Prod.snd).getD ⟨none⟩ |>.top

/-- `GoogleTrendsExplorer.get_related_queries_df` (`Trend_App.py` lines
175-186).  `fetched` is the outcome of the `related_queries()` provider call:
`Except.error` when it raises, in which case the surrounding
`try`/`except Exception: return None` yields `none`.  On success, with no
keywords the function returns `none`; otherwise it reads the first keyword's
`"top"` sub-table and, when that is present and nonempty, returns its first
10 rows (`top.head(10)`); in every other case control falls off the end of
the Python function, returning `None`. -/
def get_related_queries_df (fetched : Except String RelatedDict)
    (keywords : List String) : Option (List (String × Int)) :=
  match fetched with
  | .error _ => none
  | .ok related =>
    match keywords with
    | [] => none
    | kw :: _ =>
      match relatedGet related kw with
      | none => none
      | some top => if top = [] then none else some (top.take 10)

/-! ## The "Analyze" block -/

/-- What one run of the "Analyze" block displays (`Trend_App.py` lines
205-264).  `timeSection`, `mapSection` and `topSection` are the tables whose
charts were rendered (`none` when that chart was not rendered).
`relatedSection` is `none` when control never reached the related-queries
cell, `some r` when it did — with `r` the result of
`get_related_queries_df` (`some table` renders the table, `none` renders the
"No related queries found." notice).  `errorMessage` is the `st.error`
message, if one was shown. -/
structure AnalysisOutput where
  timeSection : Option TimeDf
  mapSection : Option RegionTable
  topSection : Option RegionTable
  relatedSection : Option (Option (List (String × Int)))
  errorMessage : Option String
deriving DecidableEq, Repr

/-- The control flow of the "Analyze" block (`Trend_App.py` lines 205-264).
`timeRes` is the outcome of `build_payload` + `fetch_interest_over_time_df`
(lines 208-211), `regionRes` of `get_interest_by_region` (line 233),
`relatedRes` of the `related_queries()` call inside
`get_related_queries_df`; `Except.error e` means the Python call raised `e`.
The whole block sits in one `try`: an exception from the time-series or
region fetch jumps to the outer `except` (line 263), which prints
`"Something went wrong: ..."` and skips every remaining section — only
`get_related_queries_df` catches its own exception. -/
def analyzeBlock (keywords : List String) (min_interest : Int) (top_n : Nat)
    (timeRes : Except String TimeDf)
    (regionRes : Except String RegionTable)
    (relatedRes : Except String RelatedDict) : AnalysisOutput :=
  match timeRes with
  | .error e => ⟨none, none, none, none, some ("Something went wrong: " ++ e)⟩
  | .ok interest_df =>
    if interest_df.isEmpty then
      ⟨none, none, none, none, some "❌ No trend data found for these keywords."⟩
    else
      match regionRes with
      | .error e =>
        ⟨some interest_df, none, none, none, some ("Something went wrong: " ++ e)⟩
      | .ok region_df =>
        ⟨some interest_df,
         if region_df.rows = [] then none else some region_df,
         row2col1Block region_df keywords min_interest top_n,
         some (get_related_queries_df relatedRes keywords),
         none⟩

/-! ## Provider calls and sleeps -/

/-- An observable step of the "Analyze" block: a `time.sleep` or a call into
the trend provider. -/
inductive AppEvent
  | sleepFor (seconds : Nat)
  | providerCall (endpoint : String)
deriving DecidableEq, Repr

/-- For each provider call in a trace, the total seconds slept since the
previous provider call (or since the start of the trace). -/
def delaysGo (acc : Nat) : List AppEvent → List (String × Nat)
  | [] => []
  | .sleepFor s :: rest => delaysGo (acc + s) rest
  | .providerCall e :: rest => (e, acc) :: delaysGo 0 rest

/-- The inter-request delay accumulated before each provider call of a
trace. -/
def delaysBefore (evs : List AppEvent) : List (String × Nat) :=
  delaysGo 0 evs

/-- The sleeps and provider calls of one successful run of the "Analyze"
block, in source order: `build_payload` (line 208), `time.sleep(1)` (line
209), `build_payload` and `interest_over_time` inside
`fetch_interest_over_time_df` (lines 106-107), `build_payload` and
`interest_by_region` inside `get_interest_by_region` (lines 116-117), and
`time.sleep(1)` and `related_queries` inside `get_related_queries_df`
(lines 177-178). -/
def analyzeEventTrace : List AppEvent :=
  [.providerCall "build_payload",
   .sleepFor 1,
   .providerCall "build_payload",
   .providerCall "interest_over_time",
   .providerCall "build_payload",
   .providerCall "interest_by_region",
   .sleepFor 1,
   .providerCall "related_queries"]

/-- The steps of `get_related_queries_df` (`Trend_App.py` lines 176-178) up
to its provider call, as a function of the call's eventual outcome: the
`time.sleep(1)` is executed first in every case — the throttle does not
depend on whether the call later fails. -/
def relatedQueriesEvents (_outcome : Except String RelatedDict) : List AppEvent :=
  [.sleepFor 1, .providerCall "related_queries"]

/-! ## Character and string lemmas -/

theorem toNat_ofNat_valid {n : Nat} (h : n < 55296) : (Char.ofNat n).toNat = n := by
  have hv : n.isValidChar := Or.inl h
  rw [Char.ofNat, dif_pos hv]
  simp [Char.ofNatAux, Char.toNat, UInt32.toNat]

theorem pyCharUpper_toNat (c : Char) :
    (pyCharUpper c).toNat =
      if 97 ≤ c.toNat ∧ c.toNat ≤ 122 then c.toNat - 32 else c.toNat := by
  unfold pyCharUpper
  by_cases h : 97 ≤ c.toNat ∧ c.toNat ≤ 122
  · rw [if_pos h, if_pos h, toNat_ofNat_valid (by omega)]
  · rw [if_neg h, if_neg h]

theorem pyCharUpper_eq_self_of_upper {c : Char} (h₁ : 65 ≤ c.toNat) (h₂ : c.toNat ≤ 90) :
    pyCharUpper c = c := by
  unfold pyCharUpper
  rw [if_neg (by omega)]

theorem pyCharUpper_upper_of_alpha {c : Char} (h : pyCharIsAlpha c = true) :
    65 ≤ (pyCharUpper c).toNat ∧ (pyCharUpper c).toNat ≤ 90 := by
  rw [pyCharUpper_toNat]
  simp only [pyCharIsAlpha, decide_eq_true_eq] at h
  by_cases hc : 97 ≤ c.toNat ∧ c.toNat ≤ 122
  · rw [if_pos hc]; omega
  · rw [if_neg hc]; omega

theorem pyCharIsSpace_eq_false_of_alpha {c : Char} (h : pyCharIsAlpha c = true) :
    pyCharIsSpace c = false := by
  simp only [pyCharIsAlpha, decide_eq_true_eq] at h
  simp only [pyCharIsSpace, decide_eq_false_iff_not]
  omega

theorem pyCharIsAlpha_of_upper {c : Char} (h₁ : 65 ≤ c.toNat) (h₂ : c.toNat ≤ 90) :
    pyCharIsAlpha c = true := by
  simp only [pyCharIsAlpha, decide_eq_true_eq]
  omega

theorem dropWhile_eq_self_of_forall_false {p : Char → Bool} {l : List Char}
    (h : ∀ c ∈ l, p c = false) : l.dropWhile p = l := by
  cases l with
  | nil => rfl
  | cons a as => rw [List.dropWhile_cons_of_neg]; simp [h a (by simp)]

theorem dropWhile_eq_nil_of_forall_true {p : Char → Bool} {l : List Char}
    (h : ∀ c ∈ l, p c = true) : l.dropWhile p = [] := by
  simp only [List.dropWhile_eq_nil_iff]
  intro c hc
  exact h c hc

theorem string_eq_empty_iff {s : String} : s = "" ↔ s.data = [] := by
  rw [String.ext_iff]

theorem pyStrip_eq_self_of_no_space {s : String}
    (h : ∀ c ∈ s.data, pyCharIsSpace c = false) : pyStrip s = s := by
  unfold pyStrip
  rw [String.ext_iff]
  show ((s.data.dropWhile pyCharIsSpace).reverse.dropWhile pyCharIsSpace).reverse = s.data
  rw [dropWhile_eq_self_of_forall_false h,
      dropWhile_eq_self_of_forall_false (fun c hc => h c (List.mem_reverse.mp hc)),
      List.reverse_reverse]

theorem pyStrip_eq_empty_of_all_space {s : String}
    (h : ∀ c ∈ s.data, pyCharIsSpace c = true) : pyStrip s = "" := by
  unfold pyStrip
  rw [String.ext_iff]
  show ((s.data.dropWhile pyCharIsSpace).reverse.dropWhile pyCharIsSpace).reverse = ([] : List Char)
  rw [dropWhile_eq_nil_of_forall_true h]
  rfl

theorem length_pyUpper (s : String) : (pyUpper s).length = s.length := by
  show (s.data.map pyCharUpper).length = s.data.length
  exact List.length_map _ _

theorem list_map_id_of_forall {α : Type} {f : α → α} :
    ∀ {l : List α}, (∀ a ∈ l, f a = a) → l.map f = l
  | [], _ => rfl
  | a :: as, h => by
    rw [List.map_cons, h a (by simp), list_map_id_of_forall (fun b hb => h b (by simp [hb]))]

theorem length_pyLower (s : String) : (pyLower s).length = s.length := by
  show (s.data.map pyCharLower).length = s.data.length
  exact List.length_map _ _

theorem lookupRegistry_empty_of_keys_ne {reg : Registry}
    (hreg : ∀ p ∈ reg, p.1 ≠ "") : lookupRegistry reg "" = none := by
  unfold lookupRegistry
  rw [List.find?_eq_none.mpr, Option.map_none']
  intro p hp
  simp only [beq_iff_eq]
  intro hcontra
  apply hreg p hp
  rw [string_eq_empty_iff]
  have : (pyLower p.1).length = 0 := by rw [hcontra]; rfl
  rw [length_pyLower] at this
  exact List.length_eq_zero.mp this

theorem lookupRegistry_congr {reg : Registry} {q₁ q₂ : String}
    (h : pyLower q₁ = pyLower q₂) : lookupRegistry reg q₁ = lookupRegistry reg q₂ := by
  unfold lookupRegistry
  have : (fun p : String × String => pyLower p.1 == pyLower q₁)
       = (fun p : String × String => pyLower p.1 == pyLower q₂) := by
    funext p; rw [h]
  rw [this]

/-! ## Lemmas about `get_country_code` -/

theorem gcc_of_guard {reg : Registry} {s : String} (hne : s ≠ "")
    (hg : (pyStrip s).length = 2 ∧ pyIsAlpha (pyStrip s) = true) :
    get_country_code reg s = pyUpper (pyStrip s) := by
  unfold get_country_code
  rw [if_neg hne]
  exact if_pos hg

theorem gcc_of_not_guard {reg : Registry} {s : String} (hne : s ≠ "")
    (hg : ¬((pyStrip s).length = 2 ∧ pyIsAlpha (pyStrip s) = true)) :
    get_country_code reg s = (lookupRegistry reg (pyStrip s)).getD "" := by
  unfold get_country_code
  rw [if_neg hne, if_neg hg]
  cases lookupRegistry reg (pyStrip s) <;> rfl

theorem isUpperCode2_gcc_guard {s : String}
    (hg : (pyStrip s).length = 2 ∧ pyIsAlpha (pyStrip s) = true) :
    isUpperCode2 (pyUpper (pyStrip s)) := by
  obtain ⟨hlen, halpha⟩ := hg
  constructor
  · rw [length_pyUpper]; exact hlen
  · intro c hc
    have hc' : c ∈ (pyStrip s).data.map pyCharUpper := hc
    obtain ⟨c', hmem, rfl⟩ := List.mem_map.mp hc'
    apply pyCharUpper_upper_of_alpha
    simp only [pyIsAlpha, Bool.and_eq_true, List.all_eq_true] at halpha
    exact halpha.2 c' hmem

/-- Shared case analysis on the result of `get_country_code`: the result is
either `""` or two uppercase letters, provided every registry code is of that
shape (as every ISO alpha-2 code is). -/
theorem gcc_empty_or_upper2 (reg : Registry) (s : String)
    (hreg : ∀ p ∈ reg, isUpperCode2 p.2) :
    get_country_code reg s = "" ∨ isUpperCode2 (get_country_code reg s) := by
  by_cases hne : s = ""
  · left; rw [hne]; rfl
  by_cases hg : (pyStrip s).length = 2 ∧ pyIsAlpha (pyStrip s) = true
  · right
    rw [gcc_of_guard hne hg]
    exact isUpperCode2_gcc_guard hg
  · rw [gcc_of_not_guard hne hg]
    cases hfind : lookupRegistry reg (pyStrip s) with
    | none => left; rfl
    | some code =>
      right
      unfold lookupRegistry at hfind
      obtain ⟨p, hp, hp2⟩ := Option.map_eq_some'.mp hfind
      have := hreg p (List.mem_of_find?_eq_some hp)
      rwa [hp2] at this

/-- Shared lemma: `get_country_code` is the identity on strings that are
already two uppercase letters. -/
theorem gcc_fixed_of_upper2 (reg : Registry) {c : String} (h : isUpperCode2 c) :
    get_country_code reg c = c := by
  obtain ⟨hlen, hchars⟩ := h
  have hdata : c.data.length = 2 := hlen
  have hne : c ≠ "" := by
    rw [Ne, string_eq_empty_iff]
    intro hd
    rw [hd] at hdata
    simp at hdata
  have hstrip : pyStrip c = c := by
    apply pyStrip_eq_self_of_no_space
    intro ch hch
    exact pyCharIsSpace_eq_false_of_alpha
      (pyCharIsAlpha_of_upper (hchars ch hch).1 (hchars ch hch).2)
  have halpha : pyIsAlpha c = true := by
    simp only [pyIsAlpha, Bool.and_eq_true, List.all_eq_true]
    constructor
    · simp only [Bool.not_eq_true']
      rw [List.isEmpty_eq_false_iff_exists_mem]
      cases hc : c.data with
      | nil => rw [hc] at hdata; simp at hdata
      | cons a as => exact ⟨a, by simp⟩
    · intro ch hch
      exact pyCharIsAlpha_of_upper (hchars ch hch).1 (hchars ch hch).2
  have hupper : pyUpper c = c := by
    rw [String.ext_iff]
    show c.data.map pyCharUpper = c.data
    exact list_map_id_of_forall
      (fun ch hch => pyCharUpper_eq_self_of_upper (hchars ch hch).1 (hchars ch hch).2)
  rw [gcc_of_guard hne (by rw [hstrip]; exact ⟨hlen, halpha⟩), hstrip, hupper]

/-! ## Claim C5 -/

/-- C5: `get_country_code` maps empty or whitespace-only input to `""`
(worldwide); maps any input of exactly two alphabetic characters (after
stripping) to its upper-cased form verbatim, trusted as a code and not
validated against the registry; and for any other input performs a
case-insensitive registry lookup, returning the alpha-2 code on success and
`""` on failure, with no error surfaced to the caller. -/
theorem c5_get_country_code_contract (reg : Registry) (s : String)
    (hreg : ∀ p ∈ reg, p.1 ≠ "") :
    ((∀ c ∈ s.data, pyCharIsSpace c = true) → get_country_code reg s = "") ∧
    ((pyStrip s).length = 2 → pyIsAlpha (pyStrip s) = true →
      get_country_code reg s = pyUpper (pyStrip s)) ∧
    (s ≠ "" → ¬((pyStrip s).length = 2 ∧ pyIsAlpha (pyStrip s) = true) →
      get_country_code reg s = (lookupRegistry reg (pyStrip s)).getD "") ∧
    (∀ q₁ q₂ : String, pyLower q₁ = pyLower q₂ →
      lookupRegistry reg q₁ = lookupRegistry reg q₂) := by
  refine ⟨?_, ?_, ?_, fun q₁ q₂ h => lookupRegistry_congr h⟩
  · intro hsp
    by_cases hne : s = ""
    · rw [hne]; rfl
    · have hstrip : pyStrip s = "" := pyStrip_eq_empty_of_all_space hsp
      rw [gcc_of_not_guard hne (by rw [hstrip]; simp),
          hstrip, lookupRegistry_empty_of_keys_ne hreg]
      rfl
  · intro hlen halpha
    have hne : s ≠ "" := by
      intro he
      rw [he] at hlen
      simp [pyStrip] at hlen
    exact gcc_of_guard hne ⟨hlen, halpha⟩
  · intro hne hg
    exact gcc_of_not_guard hne hg

theorem c5_get_country_code_contract_witness :
    get_country_code [("united states", "US")] " \t " = "" ∧
    get_country_code [("united states", "US")] " gh " = pyUpper (pyStrip " gh ") ∧
    get_country_code [("united states", "US")] "United States" =
      (lookupRegistry [("united states", "US")] (pyStrip "United States")).getD "" :=
  ⟨(c5_get_country_code_contract _ " \t " (by decide)).1 (by decide),
   (c5_get_country_code_contract _ " gh " (by decide)).2.1 (by decide) (by decide),
   (c5_get_country_code_contract _ "United States" (by decide)).2.2.1
     (by decide) (by decide)⟩

/-! ## Claim C6 -/

/-- C6: region resolution is idempotent — `resolve (resolve s) = resolve s`
for every input `s` — and behaves as the identity on valid (uppercase)
2-letter codes, provided every registry code is itself a 2-letter uppercase
code (as every ISO alpha-2 code is). -/
theorem c6_resolve_idempotent (reg : Registry)
    (hreg : ∀ p ∈ reg, isUpperCode2 p.2) :
    (∀ s, get_country_code reg (get_country_code reg s) = get_country_code reg s) ∧
    (∀ c, isUpperCode2 c → get_country_code reg c = c) := by
  constructor
  · intro s
    rcases gcc_empty_or_upper2 reg s hreg with h | h
    · rw [h]; rfl
    · exact gcc_fixed_of_upper2 reg h
  · intro c hc
    exact gcc_fixed_of_upper2 reg hc

theorem c6_resolve_idempotent_witness :
    get_country_code [("united states", "US")]
        (get_country_code [("united states", "US")] "United States")
      = get_country_code [("united states", "US")] "United States" ∧
    get_country_code [("united states", "US")] "US" = "US" :=
  ⟨(c6_resolve_idempotent _ (by decide)).1 "United States",
   (c6_resolve_idempotent _ (by decide)).2 "US" (by decide)⟩

/-! ## Claim C10 -/

/-- C10: `get_country_code` is total at its interface (the lookup-failure
branch is the caught-exception path, returning `""`), and its result is
always either the empty string or a string of exactly two uppercase
alphabetic characters, provided every registry code has that shape (as every
ISO alpha-2 code does). -/
theorem c10_get_country_code_safe (reg : Registry) (s : String)
    (hreg : ∀ p ∈ reg, isUpperCode2 p.2) :
    get_country_code reg s = "" ∨ isUpperCode2 (get_country_code reg s) :=
  gcc_empty_or_upper2 reg s hreg

theorem c10_get_country_code_safe_witness :
    get_country_code [("united states", "US")] "Atlantis" = "" ∨
    isUpperCode2 (get_country_code [("united states", "US")] "Atlantis") :=
  c10_get_country_code_safe _ "Atlantis" (by decide)

/-! ## Lemmas about the top-regions pipeline -/

theorem mem_filterMinInterest {rows : List Row} {k : String} {m : Int} {r : Row}
    (h : r ∈ filterMinInterest rows k m) :
    r ∈ rows ∧ ∃ v, r.get k = some v ∧ m ≤ v := by
  rw [filterMinInterest, List.mem_filter] at h
  refine ⟨h.1, ?_⟩
  have hp := h.2
  cases hv : r.get k with
  | none => rw [hv] at hp; simp at hp
  | some v =>
    rw [hv] at hp
    simp only [decide_eq_true_eq] at hp
    exact ⟨v, rfl, hp⟩

theorem mem_sortValuesDesc {rows : List Row} {k : String} {r : Row} :
    r ∈ sortValuesDesc rows k ↔ r ∈ rows := by
  rw [sortValuesDesc, List.mem_reverse, List.mem_insertionSort]

theorem mem_topPipeline {rows : List Row} {k : String} {m : Int} {n : Nat} {r : Row}
    (h : r ∈ topPipeline rows k m n) : r ∈ filterMinInterest rows k m := by
  rw [topPipeline] at h
  exact mem_sortValuesDesc.mp (List.mem_of_mem_take h)

theorem length_topPipeline_le (rows : List Row) (k : String) (m : Int) (n : Nat) :
    (topPipeline rows k m n).length ≤ n := by
  rw [topPipeline, List.length_take]
  exact min_le_left _ _

/-- Unfolding of the top-regions block at a nonempty keyword list. -/
theorem row2col1Block_cons (t : RegionTable) (k : String) (rest : List String)
    (m : Int) (n : Nat) :
    row2col1Block t (k :: rest) m n =
      if t.rows = [] then none
      else if k ∈ t.cols then
        if topPipeline t.rows k m n = [] then none
        else some ⟨t.cols.map (fun c => if c = k then k ++ "_interest" else c),
                   (topPipeline t.rows k m n).map (renameCol k)⟩
      else none := rfl

/-! ## Claim C3 -/

/-- C3: for every region table, keyword and thresholds `m`, `n`, the
filter/sort/truncate output has length at most `n` and every interest value
of the sorted keyword in it is at least `m`; the boundary is inclusive — a
row whose value is exactly `m` passes the filter. -/
theorem c3_top_regions_bounds (rows : List Row) (k : String) (m : Int) (n : Nat) :
    (topPipeline rows k m n).length ≤ n ∧
    (∀ r ∈ topPipeline rows k m n, ∃ v, r.get k = some v ∧ m ≤ v) ∧
    (∀ r ∈ rows, r.get k = some m → r ∈ filterMinInterest rows k m) := by
  refine ⟨length_topPipeline_le rows k m n,
    fun r hr => (mem_filterMinInterest (mem_topPipeline hr)).2, ?_⟩
  intro r hr hv
  rw [filterMinInterest, List.mem_filter]
  exact ⟨hr, by rw [hv]; simp⟩

theorem c3_top_regions_bounds_witness :
    (topPipeline [⟨"Accra", [("cats", 50)]⟩, ⟨"Suva", [("cats", 70)]⟩] "cats" 50 1).length ≤ 1 ∧
    (∃ v, Row.get ⟨"Suva", [("cats", 70)]⟩ "cats" = some v ∧ (50 : Int) ≤ v) ∧
    (⟨"Accra", [("cats", 50)]⟩ : Row) ∈
      filterMinInterest [⟨"Accra", [("cats", 50)]⟩, ⟨"Suva", [("cats", 70)]⟩] "cats" 50 :=
  ⟨(c3_top_regions_bounds [⟨"Accra", [("cats", 50)]⟩, ⟨"Suva", [("cats", 70)]⟩] "cats" 50 1).1,
   (c3_top_regions_bounds [⟨"Accra", [("cats", 50)]⟩, ⟨"Suva", [("cats", 70)]⟩] "cats" 50 1).2.1
     ⟨"Suva", [("cats", 70)]⟩ (by decide),
   (c3_top_regions_bounds [⟨"Accra", [("cats", 50)]⟩, ⟨"Suva", [("cats", 70)]⟩] "cats" 50 1).2.2
     ⟨"Accra", [("cats", 50)]⟩ (by decide) (by decide)⟩

/-! ## Claim C4 -/

/-- C4 counterexample: regions Accra and Suva have equal interest (50) and
appear in the input in the order Accra, Suva, yet the descending sort of the
filtered output emits Suva, Accra — the opposite of their input order, so
the sort is not stable in the claimed sense. -/
theorem c4_stability_counterexample :
    filterMinInterest [⟨"Accra", [("cats", 50)]⟩, ⟨"Suva", [("cats", 50)]⟩] "cats" 0
      = [⟨"Accra", [("cats", 50)]⟩, ⟨"Suva", [("cats", 50)]⟩] ∧
    sortValuesDesc
        (filterMinInterest [⟨"Accra", [("cats", 50)]⟩, ⟨"Suva", [("cats", 50)]⟩] "cats" 0)
        "cats"
      = [⟨"Suva", [("cats", 50)]⟩, ⟨"Accra", [("cats", 50)]⟩] ∧
    Row.get ⟨"Accra", [("cats", 50)]⟩ "cats" = Row.get ⟨"Suva", [("cats", 50)]⟩ "cats" ∧
    (⟨"Accra", [("cats", 50)]⟩ : Row) ≠ ⟨"Suva", [("cats", 50)]⟩ := by decide

/-- C4 amended: the descending sort is anti-stable — two rows with equal
key emerge in REVERSED input order — because pandas implements
`ascending=False` by reversing an ascending stable argsort.  (The size bound
records where the embedding of the underlying argsort as a stable sort is
exact: below 16 rows numpy's default quicksort runs its stable
insertion-sort path; for larger frames numpy guarantees no tie order at
all.) -/
theorem c4_desc_sort_antistable (k : String) (l : List Row) (a b : Row)
    (_hsize : l.length < 16)
    (hab : [a, b] <+ l) (hv : rowKey k a = rowKey k b) :
    [b, a] <+ sortValuesDesc l k := by
  have h₁ : [a, b] <+ l.insertionSort (rowLe k) :=
    List.pair_sublist_insertionSort (le_of_eq hv) hab
  have h₂ := h₁.reverse
  simpa [sortValuesDesc] using h₂

theorem c4_desc_sort_antistable_witness :
    [(⟨"Suva", [("cats", 50)]⟩ : Row), ⟨"Accra", [("cats", 50)]⟩] <+
      sortValuesDesc [⟨"Accra", [("cats", 50)]⟩, ⟨"Suva", [("cats", 50)]⟩] "cats" :=
  c4_desc_sort_antistable "cats" _ _ _ (by decide) (List.Sublist.refl _) (by decide)

/-! ## Claim C1 -/

/-- C1 counterexample: with columns `["cats", "dogs"]`, threshold 50 and
top-N 5, the spec's per-keyword aggregation (outer join over every keyword
column) contains region Accra carrying `dogs_interest = 90` and a missing
`cats_interest`; but the code's block output is built from the first keyword
only — Accra is absent altogether and no `dogs_interest` column exists. -/
theorem c1_aggregation_counterexample :
    row2col1Block
        ⟨["cats", "dogs"],
         [⟨"Accra", [("cats", 10), ("dogs", 90)]⟩, ⟨"Suva", [("cats", 80), ("dogs", 5)]⟩]⟩
        ["cats", "dogs"] 50 5
      = some ⟨["cats_interest", "dogs"],
              [⟨"Suva", [("cats_interest", 80), ("dogs", 5)]⟩]⟩ ∧
    "dogs_interest" ∉ (["cats_interest", "dogs"] : List String) ∧
    ("Accra", [("cats_interest", (none : Option Int)), ("dogs_interest", some 90)]) ∈
      aggregateSpec
        ⟨["cats", "dogs"],
         [⟨"Accra", [("cats", 10), ("dogs", 90)]⟩, ⟨"Suva", [("cats", 80), ("dogs", 5)]⟩]⟩
        50 5 := by decide

/-- C1 amended: the top-regions block aggregates ONLY the first keyword of
the keyword list — its output does not depend on the remaining keywords, it
is `none` whenever the first keyword is not a column, and otherwise it is
exactly the first keyword's filtered/sorted/truncated rows with that one
column renamed (the other columns carried through on the selected rows); no
per-keyword merge or outer join takes place. -/
theorem c1_first_keyword_only (t : RegionTable) (k : String)
    (rest rest' : List String) (m : Int) (n : Nat) :
    row2col1Block t (k :: rest) m n = row2col1Block t (k :: rest') m n ∧
    (k ∉ t.cols → row2col1Block t (k :: rest) m n = none) ∧
    (∀ out, row2col1Block t (k :: rest) m n = some out →
      out.cols = t.cols.map (fun c => if c = k then k ++ "_interest" else c) ∧
      out.rows = (topPipeline t.rows k m n).map (renameCol k) ∧
      out.rows.length ≤ n) := by
  refine ⟨rfl, ?_, ?_⟩
  · intro hk
    rw [row2col1Block_cons]
    by_cases hr : t.rows = []
    · rw [if_pos hr]
    · rw [if_neg hr, if_neg hk]
  · intro out hout
    rw [row2col1Block_cons] at hout
    by_cases hr : t.rows = []
    · rw [if_pos hr] at hout; exact absurd hout (by simp)
    rw [if_neg hr] at hout
    by_cases hk : k ∈ t.cols
    · rw [if_pos hk] at hout
      by_cases hfr : topPipeline t.rows k m n = []
      · rw [if_pos hfr] at hout; exact absurd hout (by simp)
      · rw [if_neg hfr, Option.some_inj] at hout
        subst hout
        refine ⟨rfl, rfl, ?_⟩
        rw [List.length_map]
        exact length_topPipeline_le t.rows k m n
    · rw [if_neg hk] at hout; exact absurd hout (by simp)

theorem c1_first_keyword_only_witness :
    row2col1Block ⟨["cats"], [⟨"Accra", [("cats", 50)]⟩]⟩ ["cats", "dogs"] 0 5
      = row2col1Block ⟨["cats"], [⟨"Accra", [("cats", 50)]⟩]⟩ ["cats"] 0 5 ∧
    (RegionTable.mk ["cats_interest"] [⟨"Accra", [("cats_interest", 50)]⟩]).cols
        = (["cats"] : List String).map (fun c => if c = "cats" then "cats" ++ "_interest" else c) ∧
    (RegionTable.mk ["cats_interest"] [⟨"Accra", [("cats_interest", 50)]⟩]).rows
        = (topPipeline [⟨"Accra", [("cats", 50)]⟩] "cats" 0 5).map (renameCol "cats") ∧
    (RegionTable.mk ["cats_interest"] [⟨"Accra", [("cats_interest", 50)]⟩]).rows.length ≤ 5 :=
  ⟨(c1_first_keyword_only ⟨["cats"], [⟨"Accra", [("cats", 50)]⟩]⟩ "cats" ["dogs"] [] 0 5).1,
   (c1_first_keyword_only ⟨["cats"], [⟨"Accra", [("cats", 50)]⟩]⟩ "cats" ["dogs"] [] 0 5).2.2
     ⟨["cats_interest"], [⟨"Accra", [("cats_interest", 50)]⟩]⟩ (by decide)⟩

/-! ## Claim C7 -/

/-- C7: series normalization removes the provider's `isPartial`
data-completeness flag column if present and otherwise passes the frame
through unchanged: the timestamp index (hence every row and the ascending
order) is preserved exactly, the surviving columns are exactly the
non-`isPartial` columns in their original order with their original values,
and whenever every raw column is a requested keyword or `isPartial`, every
surviving column is a requested keyword. -/
theorem c7_normalize_contract (keywords : List String) (raw : TimeDf)
    (hk : keywords ≠ []) :
    "isPartial" ∉ (fetch_interest_over_time_df keywords raw).cols.map Prod.fst ∧
    (fetch_interest_over_time_df keywords raw).index = raw.index ∧
    (fetch_interest_over_time_df keywords raw).cols <+ raw.cols ∧
    (∀ c ∈ raw.cols, c.1 ≠ "isPartial" →
      c ∈ (fetch_interest_over_time_df keywords raw).cols) ∧
    ("isPartial" ∉ raw.cols.map Prod.fst →
      fetch_interest_over_time_df keywords raw = raw) ∧
    ((∀ c ∈ raw.cols, c.1 = "isPartial" ∨ c.1 ∈ keywords) →
      ∀ c ∈ (fetch_interest_over_time_df keywords raw).cols, c.1 ∈ keywords) := by
  have hfetch : fetch_interest_over_time_df keywords raw = dropIsPartial raw := by
    rw [fetch_interest_over_time_df, if_neg hk]
  rw [hfetch]
  unfold dropIsPartial
  by_cases hp : "isPartial" ∈ raw.cols.map Prod.fst
  · rw [if_pos hp]
    refine ⟨?_, rfl, List.filter_sublist _, ?_, fun hnp => absurd hp hnp, ?_⟩
    · intro hmem
      simp only [List.mem_map] at hmem
      obtain ⟨c, hc, hc1⟩ := hmem
      have h2 := (List.mem_filter.mp hc).2
      rw [hc1] at h2
      simp at h2
    · intro c hc hne
      rw [List.mem_filter]
      exact ⟨hc, by simp [hne]⟩
    · intro hall c hc
      have hcr := List.mem_filter.mp hc
      rcases hall c hcr.1 with h | h
      · exfalso
        have h2 := hcr.2
        rw [h] at h2
        simp at h2
      · exact h
  · rw [if_neg hp]
    refine ⟨hp, rfl, List.Sublist.refl _, fun c hc _ => hc, fun _ => rfl, ?_⟩
    intro hall c hc
    rcases hall c hc with h | h
    · exact absurd (h ▸ List.mem_map_of_mem Prod.fst hc) hp
    · exact h

theorem c7_normalize_contract_witness :
    "isPartial" ∉ (fetch_interest_over_time_df ["cats"]
        ⟨[1, 2], [("cats", [5, 6]), ("isPartial", [0, 1])]⟩).cols.map Prod.fst ∧
    ∀ c ∈ (fetch_interest_over_time_df ["cats"]
        ⟨[1, 2], [("cats", [5, 6]), ("isPartial", [0, 1])]⟩).cols, c.1 ∈ ["cats"] :=
  ⟨(c7_normalize_contract ["cats"]
      ⟨[1, 2], [("cats", [5, 6]), ("isPartial", [0, 1])]⟩ (by decide)).1,
   (c7_normalize_contract ["cats"]
      ⟨[1, 2], [("cats", [5, 6]), ("isPartial", [0, 1])]⟩ (by decide)).2.2.2.2.2
     (by decide)⟩

/-! ## Claim C8 -/

/-- C8: related-query extraction returns `none` when the first keyword has
no entry in the provider's response, or when its `"top"` sub-table is
missing or empty; otherwise it returns exactly the first (at most 10) rows
of that sub-table in the order provided, with no re-sorting. -/
theorem c8_related_queries_contract (related : RelatedDict) (kw : String)
    (rest : List String) :
    (related.find? (fun p => p.1 == kw) = none →
      get_related_queries_df (.ok related) (kw :: rest) = none) ∧
    (relatedGet related kw = none →
      get_related_queries_df (.ok related) (kw :: rest) = none) ∧
    (relatedGet related kw = some [] →
      get_related_queries_df (.ok related) (kw :: rest) = none) ∧
    (∀ top, relatedGet related kw = some top → top ≠ [] →
      get_related_queries_df (.ok related) (kw :: rest) = some (top.take 10) ∧
      (top.take 10).length ≤ 10) := by
  refine ⟨?_, ?_, ?_, ?_⟩
  · intro hfind
    have hget : relatedGet related kw = none := by
      rw [relatedGet, hfind]
      rfl
    show (match relatedGet related kw with
      | none => none
      | some top => if top = [] then none else some (top.take 10)) = none
    rw [hget]
  · intro hget
    show (match relatedGet related kw with
      | none => none
      | some top => if top = [] then none else some (top.take 10)) = none
    rw [hget]
  · intro hget
    show (match relatedGet related kw with
      | none => none
      | some top => if top = [] then none else some (top.take 10)) = none
    rw [hget]
    simp
  · intro top hget hne
    refine ⟨?_, ?_⟩
    · show (match relatedGet related kw with
        | none => none
        | some top => if top = [] then none else some (top.take 10)) = some (top.take 10)
      rw [hget]
      simp [hne]
    · rw [List.length_take]
      exact min_le_left _ _

theorem c8_related_queries_contract_witness :
    get_related_queries_df (.ok [("cats", ⟨some [("cat food", 100)]⟩)]) ["cats"]
      = some ([("cat food", (100 : Int))].take 10) ∧
    get_related_queries_df (.ok [("cats", ⟨some [("cat food", 100)]⟩)]) ["dogs"] = none :=
  ⟨((c8_related_queries_contract [("cats", ⟨some [("cat food", 100)]⟩)] "cats" []).2.2.2
      [("cat food", 100)] (by decide) (by decide)).1,
   (c8_related_queries_contract [("cats", ⟨some [("cat food", 100)]⟩)] "dogs" []).1
     (by decide)⟩

/-! ## Claim C2 -/

/-- C2 counterexample: the region fetch raises while the related-queries
data is available and nonempty; the code jumps to the outer handler and the
related section is never computed (`relatedSection = none`), although it
remained computable — contradicting "caught at that call site ... the
analysis then continues computing whatever subsequent sections remain
computable". -/
theorem c2_error_handling_counterexample :
    analyzeBlock ["cats"] 0 10 (.ok ⟨[1], [("cats", [42])]⟩)
        (.error "ConnectionError") (.ok [("cats", ⟨some [("cat food", 100)]⟩)])
      = ⟨some ⟨[1], [("cats", [42])]⟩, none, none, none,
         some "Something went wrong: ConnectionError"⟩ ∧
    get_related_queries_df (.ok [("cats", ⟨some [("cat food", 100)]⟩)]) ["cats"]
      = some [("cat food", 100)] := by decide

/-- C2 amended: only the related-queries fetch is caught at its own call
site (an error there becomes the absent result `some none` and every other
section is still produced, with no error message); an error from the
time-series or region fetch instead propagates to the single per-analysis
`except` handler, which shows one "Something went wrong" message and skips
every remaining section of that invocation (sections already rendered
stand). -/
theorem c2_error_scoping (keywords : List String) (m : Int) (n : Nat)
    (tdf : TimeDf) (rdf : RegionTable) (rel : RelatedDict) (e : String)
    (ht : ¬ tdf.isEmpty) :
    analyzeBlock keywords m n (.ok tdf) (.ok rdf) (.error e)
      = ⟨some tdf, if rdf.rows = [] then none else some rdf,
         row2col1Block rdf keywords m n, some none, none⟩ ∧
    analyzeBlock keywords m n (.ok tdf) (.error e) (.ok rel)
      = ⟨some tdf, none, none, none, some ("Something went wrong: " ++ e)⟩ ∧
    analyzeBlock keywords m n (.error e) (.ok rdf) (.ok rel)
      = ⟨none, none, none, none, some ("Something went wrong: " ++ e)⟩ := by
  refine ⟨?_, ?_, rfl⟩
  · show (if tdf.isEmpty then _ else _) = _
    rw [if_neg ht]
    rfl
  · show (if tdf.isEmpty then _ else _) = _
    rw [if_neg ht]

theorem c2_error_scoping_witness :
    analyzeBlock ["cats"] 0 10 (.ok ⟨[1], [("cats", [42])]⟩) (.ok ⟨["cats"], []⟩)
        (.error "HTTP 429")
      = ⟨some ⟨[1], [("cats", [42])]⟩,
         if (RegionTable.mk ["cats"] []).rows = [] then none
           else some ⟨["cats"], []⟩,
         row2col1Block ⟨["cats"], []⟩ ["cats"] 0 10, some none, none⟩ :=
  (c2_error_scoping ["cats"] 0 10 ⟨[1], [("cats", [42])]⟩ ⟨["cats"], []⟩
    [("cats", ⟨some [("cat food", 100)]⟩)] "HTTP 429" (by decide)).1

/-! ## Claim C9 -/

/-- C9 counterexample: the delay inserted before the related-queries call is
exactly 1 second, not the claimed ≥ 3; and the interest-by-region call is
issued with no preceding delay at all, refuting "before each provider call
... at least 1 second". -/
theorem c9_throttle_counterexample :
    (delaysBefore analyzeEventTrace).filter (fun d => d.1 == "related_queries")
      = [("related_queries", 1)] ∧
    ¬ 3 ≤ (1 : Nat) ∧
    ("interest_by_region", 0) ∈ delaysBefore analyzeEventTrace := by decide

/-- C9 amended: the code sleeps 1 second once, between the initial payload
construction and the payload rebuild inside the time-series fetch, and 1
second (not 3) immediately before the related-queries call; no sleep
precedes the interest-over-time or interest-by-region requests.  Both sleeps
are unconditional throttles: in particular the related-queries sleep is
executed before the call whatever the call's eventual outcome, not as a
reaction to an error. -/
theorem c9_throttle_placement :
    delaysBefore analyzeEventTrace
      = [("build_payload", 0), ("build_payload", 1), ("interest_over_time", 0),
         ("build_payload", 0), ("interest_by_region", 0), ("related_queries", 1)] ∧
    (∀ outcome, relatedQueriesEvents outcome
      = [.sleepFor 1, .providerCall "related_queries"]) :=
  ⟨by decide, fun _ => rfl⟩

end TrendApp
